import Mathlib

/-! Verification of the host-side STM32 UART bootloader flasher
    (serialComm_stt): a shallow embedding of the firmware-image loader
    (`BinaryFile.loadBinary`) and of the protocol state machine
    (`Idle_01` .. `Error_98`, driven by `Context.execute`), together with
    theorems settling the specification's claims about them.

    Modelling conventions:
    - bytes are `Nat` values (real serial bytes are < 256);
    - an inbound tick input is `Option (List Nat)`: `none` is Python's
      `None` ("no frame this tick"), `some bs` is the byte string the
      serial read returned (the read can return fewer than 4 bytes);
    - side effects are reified as a list of `Ev` events: `Ev.tx` is a
      serial write (`writeSerialBuffer`), `Ev.log` a console print;
    - Python runtime errors (IndexError, ValueError, OverflowError) are
      `Except.error`; all functions otherwise mirror the source
      statement-by-statement, including evaluation order of guards. -/

namespace Flasher

set_option maxRecDepth 100000

/-- Decidable equality of `Except` results, so that runs of the embedded
    program on concrete inputs can be checked by `decide`. -/
instance instDecEqExcept {ε α : Type} [DecidableEq ε] [DecidableEq α] :
    DecidableEq (Except ε α) := fun a b =>
  match a, b with
  | Except.ok x, Except.ok y =>
    if h : x = y then Decidable.isTrue (by rw [h])
    else Decidable.isFalse (by intro hc; cases hc; exact h rfl)
  | Except.error x, Except.error y =>
    if h : x = y then Decidable.isTrue (by rw [h])
    else Decidable.isFalse (by intro hc; cases hc; exact h rfl)
  | Except.ok _, Except.error _ => Decidable.isFalse (by intro hc; cases hc)
  | Except.error _, Except.ok _ => Decidable.isFalse (by intro hc; cases hc)

/-- An observable side effect of the flasher: a serial transmission of a
    byte sequence, or a console log line. -/
inductive Ev where
  | tx : List Nat → Ev
  | log : String → Ev
  deriving DecidableEq

/-- Python list indexing `l[i]` on a list/bytes value: raises IndexError
    when `i` is out of range. -/
def pyIx {α : Type} (l : List α) (i : Nat) : Except String α :=
  match l.get? i with
  | some a => Except.ok a
  | none => Except.error "IndexError"

/-- Python `int(s)` applied to a digit string, the digits given as their
    numeric values: parses the digits in base 10, raising ValueError on an
    empty string or on any character that is not a decimal digit (such as
    the hex digits a-f, which appear as values 10..15 here). -/
def pyIntDecimal (ds : List Nat) : Except String Nat :=
  if ds.isEmpty || ds.any (fun d => 10 ≤ d) then Except.error "ValueError"
  else Except.ok (ds.foldl (fun a d => 10 * a + d) 0)

/-- Big-endian byte rendering of `v` in `k` bytes (helper for `pyToBytesBE`). -/
def natToBEBytes : Nat → Nat → List Nat
  | 0, _ => []
  | k + 1, v => natToBEBytes k (v / 256) ++ [v % 256]

/-- Python `v.to_bytes(k, 'big')`: raises OverflowError when `v` does not
    fit in `k` bytes. -/
def pyToBytesBE (k : Nat) (v : Nat) : Except String (List Nat) :=
  if v < 256 ^ k then Except.ok (natToBEBytes k v)
  else Except.error "OverflowError"

/-- Python `bytes.hex()` viewed as the list of hex-digit values: every
    byte contributes its high then its low nibble. -/
def bytesHexDigits (bs : List Nat) : List Nat :=
  bs.flatMap (fun b => [b / 16 % 16, b % 16])

/-- Modelled from the spec: one shift-and-xor step of the CRC-CCITT
    (false) 16-bit CRC used by the external `crcmod` library
    (polynomial 0x1021, not reflected). -/
def crcStep (c : Nat) : Nat :=
  if 32768 ≤ c then ((c * 2) ^^^ 4129) % 65536 else (c * 2) % 65536

/-- Modelled from the spec: folding one input byte into the CRC-CCITT
    (false) accumulator (byte xor-ed into the high byte, then 8 steps). -/
def crcByte (c b : Nat) : Nat :=
  (List.range 8).foldl (fun a _ => crcStep a) ((c ^^^ (b % 256 * 256)) % 65536)

/-- Modelled from the spec: the `crc-ccitt-false` checksum of the
    external `crcmod` library (initial value 0xFFFF, no final xor), as
    used by `BinaryFile.loadBinary` over the whole raw file. -/
def crc16 (bs : List Nat) : Nat := bs.foldl crcByte 65535

/-- The `BinaryFile` object: raw file bytes plus the derived packet
    sequence and metadata, mirroring the Python class field-by-field.
    `SW_MAJOR`/`SW_MINOR` hold the hex-digit string (as digit values)
    that Python's `.hex()` produced, since the source stores the string. -/
structure BinaryFile where
  fileData : List Nat := []
  fileSizeBytes : Nat := 0
  fileSizePackets : Nat := 0
  filePackets : List (List Nat) := []
  SW_MAJOR : List Nat := []
  SW_MINOR : List Nat := []
  CRC_MSB : Nat := 0
  CRC_LSB : Nat := 0
  deriving DecidableEq

/-- A freshly constructed `BinaryFile()` (the `__init__` values; the
    version fields start as the int 0 in Python and are modelled by the
    empty digit string). -/
def BinaryFile.init : BinaryFile := {}

/-- `BinaryFile.loadBinary`, with the file contents passed as the byte
    list `fileData`. Mirrors the source:
    - `fileSizePackets = math.ceil(len(fileData) / 4)`;
    - each packet is the slice `fileData[4*idx : 4*idx+4]` reversed
      (Python slicing truncates at the end of the buffer and never
      raises, so the `except` fallback branch in the source is dead
      code; a short final slice gives a short, unpadded packet);
    - packets are appended onto the packet list already in `self`
      (the source never clears `self.filePackets`);
    - `SW_MAJOR`/`SW_MINOR` are `filePackets[0x80].hex()` and
      `filePackets[0x81].hex()` (IndexError when too few packets);
    - the CRC fields split the crc-ccitt-false value of the raw bytes.
    The user-facing prints at the end of the source method only display
    these same values and are not modelled as events. -/
def BinaryFile.loadBinary (self : BinaryFile) (fileData : List Nat) :
    Except String BinaryFile :=
  let fileSizeBytes := fileData.length
  let fileSizePackets := (fileSizeBytes + 3) / 4
  let filePackets := self.filePackets ++
    (List.range fileSizePackets).map
      (fun idx => ((fileData.drop (4 * idx)).take 4).reverse)
  match pyIx filePackets 0x80 with
  | Except.error e => Except.error e
  | Except.ok pMaj =>
    match pyIx filePackets 0x81 with
    | Except.error e => Except.error e
    | Except.ok pMin =>
      let crc := crc16 fileData
      Except.ok
        { fileData := fileData
          fileSizeBytes := fileSizeBytes
          fileSizePackets := fileSizePackets
          filePackets := filePackets
          SW_MAJOR := bytesHexDigits pMaj
          SW_MINOR := bytesHexDigits pMin
          CRC_MSB := (crc &&& 65280) >>> 8
          CRC_LSB := crc &&& 255 }

/-- The tagged state of the protocol state machine; `sendFlashData`
    carries the state-local transmitted-packet counter (`packetNum`). -/
inductive St where
  | idle
  | checkHeaderAndEraseMem
  | prepare2Flash
  | sendFlashData (packetNum : Nat)
  | flashDone
  | error
  deriving DecidableEq

/-- The protocol phase of a state, forgetting the streaming counter. -/
def St.tag : St → Nat
  | St.idle => 1
  | St.checkHeaderAndEraseMem => 2
  | St.prepare2Flash => 3
  | St.sendFlashData _ => 4
  | St.flashDone => 5
  | St.error => 6

def deviceFoundMsg : String :=
  "--> Device found! Starting communication to flash SW + sending SW version to MCU <--"

def eraseSectorMsg (b : Nat) : String :=
  "--> Erasing flash memory - Sector " ++ toString b ++ " erased! <--"

def alreadyFlashedMsg : String :=
  "--> SW version already flashed in MCU. No action! <--"

def allErasedMsg : String :=
  "--> Erasing flash memory - All sectors erased succesfully! <--"

def waitingReadinessMsg : String :=
  "--> Waiting MCU readiness to start to send binary packets <--"

def authorizedMsg : String :=
  "--> Sw authorized to be flashed <--"

def progressMsg (n : Nat) : String :=
  "--> Transmitted packets: " ++ toString n ++ " <--"

def finishedMsg (n total : Nat) : String :=
  "--> Transmission finished - Transmitted " ++ toString n ++ " of " ++
    toString total ++ " <--"

def crcMatchMsg : String :=
  "--> CRC matched - Data integrity ensured!"

def crcMismatchMsg : String :=
  "--> CRC not matched - expected - Data integrity not ensured!"

def mcuErrorMsg : String :=
  "--> Error! <--"

def bootFinishedMsg : String :=
  "--> Bootloader finished. Jumping to application <--"

def abortMsg : String :=
  "--> Process error. Aborting! <--"

/-- `Idle_01.stateTransition`: on a non-empty input whose first byte is
    0x80, prints the device-found line, builds the response
    `0xC0, int(SW_MAJOR), int(SW_MINOR), 0xFF` (each version value parsed
    from its stored digit string by Python `int`, then rendered by
    `to_bytes(1,'big')`, both of which can raise) and writes it, then
    moves to `CheckHeaderAndEraseMem_02`. Any other input falls through
    and returns `None` (stay). -/
def Idle_01.stateTransition (bf : BinaryFile) (input : Option (List Nat)) :
    Except String (Option St × List Ev) :=
  match input with
  | some (b0 :: _) =>
    if b0 = 0x80 then
      match pyIntDecimal bf.SW_MAJOR with
      | Except.error e => Except.error e
      | Except.ok mj =>
        match pyToBytesBE 1 mj with
        | Except.error e => Except.error e
        | Except.ok mjB =>
          match pyIntDecimal bf.SW_MINOR with
          | Except.error e => Except.error e
          | Except.ok mn =>
            match pyToBytesBE 1 mn with
            | Except.error e => Except.error e
            | Except.ok mnB =>
              Except.ok (some St.checkHeaderAndEraseMem,
                [Ev.log deviceFoundMsg,
                 Ev.tx ([0xC0] ++ mjB ++ mnB ++ [0xFF])])
    else Except.ok (none, [])
  | _ => Except.ok (none, [])

/-- `CheckHeaderAndEraseMem_02.stateActions`: on a non-empty input with
    first byte 0x81, prints the erased sector taken from `input[1]`
    (IndexError on a 1-byte input). -/
def CheckHeaderAndEraseMem_02.stateActions (input : Option (List Nat)) :
    Except String (List Ev) :=
  match input with
  | some (b0 :: rest) =>
    if b0 = 0x81 then
      match pyIx (b0 :: rest) 1 with
      | Except.error e => Except.error e
      | Except.ok b1 => Except.ok [Ev.log (eraseSectorMsg b1)]
    else Except.ok []
  | _ => Except.ok []

/-- `CheckHeaderAndEraseMem_02.stateTransition`: 0x8E returns to Idle;
    0x81 with `input[2] == 0x01` (IndexError on inputs shorter than 3
    bytes) emits `0xC1` + the packet count in 3 big-endian bytes and
    moves to `Prepare2Flash_03`; anything else stays. -/
def CheckHeaderAndEraseMem_02.stateTransition (bf : BinaryFile)
    (input : Option (List Nat)) : Except String (Option St × List Ev) :=
  match input with
  | some (b0 :: rest) =>
    if b0 = 0x8E then Except.ok (some St.idle, [Ev.log alreadyFlashedMsg])
    else if b0 = 0x81 then
      match pyIx (b0 :: rest) 2 with
      | Except.error e => Except.error e
      | Except.ok b2 =>
        if b2 = 0x01 then
          match pyToBytesBE 3 bf.fileSizePackets with
          | Except.error e => Except.error e
          | Except.ok cnt =>
            Except.ok (some St.prepare2Flash,
              [Ev.log allErasedMsg, Ev.tx ([0xC1] ++ cnt)])
        else Except.ok (none, [])
    else Except.ok (none, [])
  | _ => Except.ok (none, [])

/-- `Prepare2Flash_03.stateActions`: logs the waiting line on a 0x81 input. -/
def Prepare2Flash_03.stateActions (input : Option (List Nat)) :
    Except String (List Ev) :=
  match input with
  | some (b0 :: _) =>
    if b0 = 0x81 then Except.ok [Ev.log waitingReadinessMsg] else Except.ok []
  | _ => Except.ok []

/-- `Prepare2Flash_03.stateTransition`: 0x82 authorizes flashing and moves
    to `SendFlashData_04` with a fresh counter of 0; anything else stays. -/
def Prepare2Flash_03.stateTransition (input : Option (List Nat)) :
    Except String (Option St × List Ev) :=
  match input with
  | some (b0 :: _) =>
    if b0 = 0x82 then
      Except.ok (some (St.sendFlashData 0), [Ev.log authorizedMsg])
    else Except.ok (none, [])
  | _ => Except.ok (none, [])

/-- `SendFlashData_04.stateActions` (the Python method ignores its input
    argument): while `packetNum < fileSizePackets`, transmits
    `filePackets[packetNum]` and increments the counter; afterwards, if
    the (updated) counter is a multiple of 250 (`np.remainder`), prints
    the progress line. Returns the events and the updated counter. -/
def SendFlashData_04.stateActions (bf : BinaryFile) (packetNum : Nat) :
    Except String (List Ev × Nat) :=
  match
    (if packetNum < bf.fileSizePackets then
      match pyIx bf.filePackets packetNum with
      | Except.error e => Except.error e
      | Except.ok p => Except.ok ([Ev.tx p], packetNum + 1)
    else Except.ok ([], packetNum) : Except String (List Ev × Nat)) with
  | Except.error e => Except.error e
  | Except.ok (evs, n1) =>
    if n1 % 250 = 0 then Except.ok (evs ++ [Ev.log (progressMsg n1)], n1)
    else Except.ok (evs, n1)

/-- `SendFlashData_04.stateTransition`: 0x84 prints the
    transmission-finished line, compares `input[2]`/`input[3]` with the
    stored CRC bytes (Python short-circuit: `input[3]` is only read when
    `input[2]` matched), logs match or mismatch, and moves to
    `FlashDone_99` either way; 0x8F logs the device error and moves to
    `Error_98`; anything else stays. -/
def SendFlashData_04.stateTransition (bf : BinaryFile) (packetNum : Nat)
    (input : Option (List Nat)) : Except String (Option St × List Ev) :=
  match input with
  | some (b0 :: rest) =>
    if b0 = 0x84 then
      match pyIx (b0 :: rest) 2 with
      | Except.error e => Except.error e
      | Except.ok b2 =>
        if b2 = bf.CRC_MSB then
          match pyIx (b0 :: rest) 3 with
          | Except.error e => Except.error e
          | Except.ok b3 =>
            if b3 = bf.CRC_LSB then
              Except.ok (some St.flashDone,
                [Ev.log (finishedMsg packetNum bf.fileSizePackets),
                 Ev.log crcMatchMsg])
            else
              Except.ok (some St.flashDone,
                [Ev.log (finishedMsg packetNum bf.fileSizePackets),
                 Ev.log crcMismatchMsg])
        else
          Except.ok (some St.flashDone,
            [Ev.log (finishedMsg packetNum bf.fileSizePackets),
             Ev.log crcMismatchMsg])
    else if b0 = 0x8F then
      Except.ok (some St.error, [Ev.log mcuErrorMsg])
    else Except.ok (none, [])
  | _ => Except.ok (none, [])

/-- `FlashDone_99.stateTransition`: 0x85 logs the bootloader-finished
    line and returns to Idle; anything else stays. -/
def FlashDone_99.stateTransition (input : Option (List Nat)) :
    Except String (Option St × List Ev) :=
  match input with
  | some (b0 :: _) =>
    if b0 = 0x85 then Except.ok (some St.idle, [Ev.log bootFinishedMsg])
    else Except.ok (none, [])
  | _ => Except.ok (none, [])

/-- `Error_98.stateTransition`: no guard on the input at all — it always
    logs the abort line and returns to Idle, for any input including
    `None`. -/
def Error_98.stateTransition (_input : Option (List Nat)) :
    Except String (Option St × List Ev) :=
  Except.ok (some St.idle, [Ev.log abortMsg])

/-- Dispatch of `stateActions` on the current state object (states not
    overriding it inherit the `pass` of `SuperState`). For the streaming
    state the counter mutation is returned as the updated state. -/
def stateActionsOf (bf : BinaryFile) (s : St) (input : Option (List Nat)) :
    Except String (List Ev × St) :=
  match s with
  | St.checkHeaderAndEraseMem =>
    match CheckHeaderAndEraseMem_02.stateActions input with
    | Except.error e => Except.error e
    | Except.ok evs => Except.ok (evs, s)
  | St.prepare2Flash =>
    match Prepare2Flash_03.stateActions input with
    | Except.error e => Except.error e
    | Except.ok evs => Except.ok (evs, s)
  | St.sendFlashData n =>
    match SendFlashData_04.stateActions bf n with
    | Except.error e => Except.error e
    | Except.ok (evs, n1) => Except.ok (evs, St.sendFlashData n1)
  | _ => Except.ok ([], s)

/-- Dispatch of `stateTransition` on the (action-updated) state object. -/
def stateTransitionOf (bf : BinaryFile) (s : St) (input : Option (List Nat)) :
    Except String (Option St × List Ev) :=
  match s with
  | St.idle => Idle_01.stateTransition bf input
  | St.checkHeaderAndEraseMem =>
    CheckHeaderAndEraseMem_02.stateTransition bf input
  | St.prepare2Flash => Prepare2Flash_03.stateTransition input
  | St.sendFlashData n => SendFlashData_04.stateTransition bf n input
  | St.flashDone => FlashDone_99.stateTransition input
  | St.error => Error_98.stateTransition input

/-- `Context.execute`: one tick of the machine — run the current state's
    `stateActions` first, then its `stateTransition` (on the
    action-updated state object); a `None` transition result means
    "stay". The returned events concatenate actions' then transition's
    effects, in order. -/
def Context.execute (bf : BinaryFile) (s : St) (input : Option (List Nat)) :
    Except String (St × List Ev) :=
  match stateActionsOf bf s input with
  | Except.error e => Except.error e
  | Except.ok (aEvs, s1) =>
    match stateTransitionOf bf s1 input with
    | Except.error e => Except.error e
    | Except.ok (next, tEvs) =>
      Except.ok (next.getD s1, aEvs ++ tEvs)

/-- Iterate `Context.execute` with the no-input signal (`None`) `k`
    times, accumulating events. -/
def execIterNone (bf : BinaryFile) (s : St) : Nat → Except String (St × List Ev)
  | 0 => Except.ok (s, [])
  | k + 1 =>
    match Context.execute bf s none with
    | Except.error e => Except.error e
    | Except.ok (s1, evs) =>
      match execIterNone bf s1 k with
      | Except.error e => Except.error e
      | Except.ok (s2, evs2) => Except.ok (s2, evs ++ evs2)

/-- Iterate `Context.execute` over a list of tick inputs (one per poll),
    accumulating events. -/
def execIter (bf : BinaryFile) (s : St) :
    List (Option (List Nat)) → Except String (St × List Ev)
  | [] => Except.ok (s, [])
  | input :: rest =>
    match Context.execute bf s input with
    | Except.error e => Except.error e
    | Except.ok (s1, evs) =>
      match execIter bf s1 rest with
      | Except.error e => Except.error e
      | Except.ok (s2, evs2) => Except.ok (s2, evs ++ evs2)

/-- The serial transmissions among a list of events. -/
def evsTx (evs : List Ev) : List (List Nat) :=
  evs.filterMap (fun e => match e with | Ev.tx bs => some bs | _ => none)

/-- A tick input as the session driver hands it to the machine: the
    no-frame signal, or a full 4-byte frame. -/
def tickInput (input : Option (List Nat)) : Prop :=
  input = none ∨ ∃ b0 b1 b2 b3, input = some [b0, b1, b2, b3]

/-- A tick input carrying no terminal opcode for the streaming state:
    the no-frame signal, or a 4-byte frame whose opcode is neither 0x84
    nor 0x8F (such as the device's informational 0x83 frames). -/
def nonTerminalInput (input : Option (List Nat)) : Prop :=
  input = none ∨
    ∃ b0 b1 b2 b3, input = some [b0, b1, b2, b3] ∧ b0 ≠ 0x84 ∧ b0 ≠ 0x8F

/-- Whether an opcode byte can trigger a transition out of a state
    (the opcodes appearing in the state's `stateTransition` guards; the
    Error state transitions unconditionally, on any input). -/
def opcodeTriggers (s : St) (b0 : Nat) : Bool :=
  match s with
  | St.idle => b0 = 0x80
  | St.checkHeaderAndEraseMem => b0 = 0x8E || b0 = 0x81
  | St.prepare2Flash => b0 = 0x82
  | St.sendFlashData _ => b0 = 0x84 || b0 = 0x8F
  | St.flashDone => b0 = 0x85
  | St.error => true

/-- A concrete `BinaryFile` value used to instantiate theorems: two
    packets, consistent packet count, version digit strings parsing to
    1 and 2. -/
def bfSmall : BinaryFile :=
  { fileData := [1, 2, 3, 4, 5, 6, 7, 8]
    fileSizeBytes := 8
    fileSizePackets := 2
    filePackets := [[4, 3, 2, 1], [8, 7, 6, 5]]
    SW_MAJOR := [0, 1]
    SW_MINOR := [0, 2]
    CRC_MSB := 7
    CRC_LSB := 8 }

/-- A 517-byte all-zero firmware file: long enough for version
    extraction (packet 0x81 exists) and of length not a multiple of 4,
    so the final packet is a short tail. -/
def fileData517 : List Nat := List.replicate 517 0

/-- A 520-byte firmware file whose word at raw offset 0x200 is the
    little-endian 0x10 (so the byte at 0x200 is 0x10) and whose word at
    0x204 is zero. -/
def fileData520 : List Nat :=
  List.replicate 512 0 ++ [0x10, 0, 0, 0] ++ List.replicate 4 0

/-- The image a successful fresh load of `bs` produces (fresh-init
    fallback when the load raises; used to name concrete loaded images
    in closed statements). -/
def loadedOr (bs : List Nat) : BinaryFile :=
  match BinaryFile.loadBinary BinaryFile.init bs with
  | Except.ok bf => bf
  | Except.error _ => BinaryFile.init

/-! Helper lemmas about the embedding. -/

lemma get?_eq_getD {α : Type} (l : List α) (n : Nat) (d : α) (h : n < l.length) :
    l.get? n = some (l.getD n d) := by
  cases hg : l.get? n with
  | none =>
    have := List.get?_eq_none.mp hg
    omega
  | some a =>
    have hg2 : l[n]? = some a := by rw [← List.get?_eq_getElem?]; exact hg
    simp [List.getD, hg2]

lemma pyIx_ok {α : Type} (l : List α) (n : Nat) (d : α) (h : n < l.length) :
    pyIx l n = Except.ok (l.getD n d) := by
  unfold pyIx
  rw [get?_eq_getD l n d h]

/-- `SendFlashData_04.stateActions` while packets remain: transmit packet
    `packetNum` and advance the counter. -/
lemma sendActions_lt (bf : BinaryFile) (n : Nat)
    (hlen : bf.fileSizePackets ≤ bf.filePackets.length)
    (hn : n < bf.fileSizePackets) :
    SendFlashData_04.stateActions bf n =
      Except.ok
        ((if (n + 1) % 250 = 0 then
            [Ev.tx (bf.filePackets.getD n []), Ev.log (progressMsg (n + 1))]
          else [Ev.tx (bf.filePackets.getD n [])]), n + 1) := by
  unfold SendFlashData_04.stateActions
  rw [if_pos hn, pyIx_ok bf.filePackets n [] (lt_of_lt_of_le hn hlen)]
  by_cases hm : (n + 1) % 250 = 0 <;> simp [hm]

/-- `SendFlashData_04.stateActions` once all packets are sent: no
    transmission, counter unchanged. -/
lemma sendActions_ge (bf : BinaryFile) (n : Nat)
    (hn : bf.fileSizePackets ≤ n) :
    SendFlashData_04.stateActions bf n =
      Except.ok ((if n % 250 = 0 then [Ev.log (progressMsg n)] else []), n) := by
  unfold SendFlashData_04.stateActions
  rw [if_neg (by omega)]
  by_cases hm : n % 250 = 0 <;> simp [hm]

/-- A `None` tick in the streaming state with packets remaining. -/
lemma sendTick_none_lt (bf : BinaryFile) (n : Nat)
    (hlen : bf.fileSizePackets ≤ bf.filePackets.length)
    (hn : n < bf.fileSizePackets) :
    Context.execute bf (St.sendFlashData n) none =
      Except.ok (St.sendFlashData (n + 1),
        if (n + 1) % 250 = 0 then
          [Ev.tx (bf.filePackets.getD n []), Ev.log (progressMsg (n + 1))]
        else [Ev.tx (bf.filePackets.getD n [])]) := by
  have hact := sendActions_lt bf n hlen hn
  simp [Context.execute, stateActionsOf, hact, stateTransitionOf,
    SendFlashData_04.stateTransition]

/-- A `None` tick in the streaming state with all packets sent. -/
lemma sendTick_none_ge (bf : BinaryFile) (n : Nat)
    (hn : bf.fileSizePackets ≤ n) :
    Context.execute bf (St.sendFlashData n) none =
      Except.ok (St.sendFlashData n,
        if n % 250 = 0 then [Ev.log (progressMsg n)] else []) := by
  have hact := sendActions_ge bf n hn
  simp [Context.execute, stateActionsOf, hact, stateTransitionOf,
    SendFlashData_04.stateTransition]

/-- A non-terminal tick (no frame, or any 4-byte frame without a 0x84 or
    0x8F opcode) in the streaming state with packets remaining: transmit
    the packet, advance the counter, stay streaming. -/
lemma sendTick_nt_lt (bf : BinaryFile) (n : Nat) (input : Option (List Nat))
    (hlen : bf.fileSizePackets ≤ bf.filePackets.length)
    (hn : n < bf.fileSizePackets) (hin : nonTerminalInput input) :
    Context.execute bf (St.sendFlashData n) input =
      Except.ok (St.sendFlashData (n + 1),
        if (n + 1) % 250 = 0 then
          [Ev.tx (bf.filePackets.getD n []), Ev.log (progressMsg (n + 1))]
        else [Ev.tx (bf.filePackets.getD n [])]) := by
  rcases hin with rfl | ⟨b0, b1, b2, b3, rfl, h84, h8F⟩
  · exact sendTick_none_lt bf n hlen hn
  · have hact := sendActions_lt bf n hlen hn
    simp [Context.execute, stateActionsOf, hact, stateTransitionOf,
      SendFlashData_04.stateTransition, h84, h8F]

/-- A non-terminal tick in the streaming state with all packets sent:
    stay in place, transmit nothing. -/
lemma sendTick_nt_ge (bf : BinaryFile) (n : Nat) (input : Option (List Nat))
    (hge : bf.fileSizePackets ≤ n) (hin : nonTerminalInput input) :
    Context.execute bf (St.sendFlashData n) input =
      Except.ok (St.sendFlashData n,
        if n % 250 = 0 then [Ev.log (progressMsg n)] else []) := by
  rcases hin with rfl | ⟨b0, b1, b2, b3, rfl, h84, h8F⟩
  · exact sendTick_none_ge bf n hge
  · have hact := sendActions_ge bf n hge
    simp [Context.execute, stateActionsOf, hact, stateTransitionOf,
      SendFlashData_04.stateTransition, h84, h8F]

/-- A state on which a `None` tick is the identity stays so under
    iteration. -/
lemma iterNone_fixed (bf : BinaryFile) (s : St)
    (h : Context.execute bf s none = Except.ok (s, [])) :
    ∀ k, execIterNone bf s k = Except.ok (s, []) := by
  intro k
  induction k with
  | zero => rfl
  | succ k ih => simp [execIterNone, h, ih]

/-! Claim C2 — NoFrame idempotence.
    The claim as frozen includes the Error state; the code's
    `Error_98.stateTransition` has no guard on its input and returns
    `Idle_01()` unconditionally, so a `None` tick in Error logs the abort
    line and moves to Idle. The amended claim restricts the idempotence
    to Idle, CheckHeaderAndEraseMem, Prepare2Flash and FlashDone. -/

/-- C2 (counterexample): in the Error state, a `None` (NoFrame) tick is
    not a no-op — it logs the abort line and changes the state to Idle. -/
theorem C2_counterexample :
    Context.execute BinaryFile.init St.error none =
      Except.ok (St.idle, [Ev.log abortMsg]) ∧
    St.idle ≠ St.error := by
  constructor
  · rfl
  · decide

/-- C2 (amended): feeding the no-input signal any number of times in
    Idle, CheckHeaderAndEraseMem, Prepare2Flash or FlashDone causes no
    state change and no side effect; the Error state is excluded, since
    its transition fires on any input, `None` included. -/
theorem C2_noFrame_idempotence : ∀ (bf : BinaryFile) (k : Nat),
    execIterNone bf St.idle k = Except.ok (St.idle, []) ∧
    execIterNone bf St.checkHeaderAndEraseMem k =
      Except.ok (St.checkHeaderAndEraseMem, []) ∧
    execIterNone bf St.prepare2Flash k = Except.ok (St.prepare2Flash, []) ∧
    execIterNone bf St.flashDone k = Except.ok (St.flashDone, []) := by
  intro bf k
  exact ⟨iterNone_fixed bf St.idle rfl k,
    iterNone_fixed bf St.checkHeaderAndEraseMem rfl k,
    iterNone_fixed bf St.prepare2Flash rfl k,
    iterNone_fixed bf St.flashDone rfl k⟩

/-! Claim C7 — short inbound byte strings.
    The claim as frozen says any non-empty string shorter than 4 bytes is
    treated exactly like NoFrame. In the code only `None` and the empty
    string are: the guards check just `len(input) > 0` and `input[0]`,
    so a 1-byte `0x80` in Idle triggers the full version-reply
    transition. The amended claim keeps the equivalence for the empty
    string only. -/

/-- C7 (counterexample): in Idle the 1-byte input `0x80` — non-empty and
    shorter than 4 bytes — is not treated like NoFrame: it emits the
    version reply and transitions to CheckHeaderAndEraseMem. -/
theorem C7_counterexample :
    Context.execute bfSmall St.idle (some [0x80]) =
      Except.ok (St.checkHeaderAndEraseMem,
        [Ev.log deviceFoundMsg, Ev.tx [0xC0, 1, 2, 0xFF]]) ∧
    Context.execute bfSmall St.idle none = Except.ok (St.idle, []) ∧
    St.checkHeaderAndEraseMem ≠ St.idle ∧
    ([0x80] : List Nat).length < 4 := by
  refine ⟨by decide, rfl, by decide, by decide⟩

/-- C7 (amended): an empty inbound byte string is treated exactly like
    NoFrame in every state — the tick has identical result (state and
    side effects) — while non-empty short strings are dispatched on
    their first byte like full frames. -/
theorem C7_empty_like_noFrame : ∀ (bf : BinaryFile) (s : St),
    Context.execute bf s (some []) = Context.execute bf s none := by
  intro bf s
  cases s with
  | sendFlashData n =>
    cases h : SendFlashData_04.stateActions bf n with
    | error e => simp [Context.execute, stateActionsOf, h]
    | ok p =>
      cases p with
      | mk evs n1 =>
        simp [Context.execute, stateActionsOf, h, stateTransitionOf,
          SendFlashData_04.stateTransition]
  | idle => rfl
  | checkHeaderAndEraseMem => rfl
  | prepare2Flash => rfl
  | flashDone => rfl
  | error => rfl

/-! Claim C3 — the Idle version reply.
    The claim as frozen says the emitted version bytes are the raw bytes
    the image embeds at offsets 0x200 and 0x204. The code instead emits
    `int(filePackets[0x80].hex())` — the DECIMAL parse of the hex
    rendering of the byte-reversed word — which differs from the raw
    byte whenever its hex digits read differently in base 10 (e.g. the
    byte 0x10 is emitted as 10), and raises ValueError on digits a-f. -/

/-- C3 (counterexample): for the 520-byte image whose byte at raw offset
    0x200 is 0x10 (word `10 00 00 00`) and whose word at 0x204 is zero,
    the Idle reply to opcode 0x80 carries version byte 10, not the
    embedded byte 0x10 = 16. -/
theorem C3_counterexample :
    fileData520.getD 0x200 0 = 0x10 ∧
    fileData520.getD 0x204 0 = 0 ∧
    (Context.execute (loadedOr fileData520) St.idle
        (some [0x80, 0xFF, 0xFF, 0xFF])).toOption.map (fun p => evsTx p.2) =
      some [[0xC0, 10, 0, 0xFF]] ∧
    ([[0xC0, 10, 0, 0xFF]] : List (List Nat)) ≠ [[0xC0, 0x10, 0, 0xFF]] := by
  refine ⟨by decide, by decide, by decide, by decide⟩

/-- C3 (amended): in Idle, on an inbound frame with opcode byte 0x80,
    the machine emits `0xC0, mj, mn, 0xFF` — where `mj`/`mn` are the
    base-10 parses of the hex digit strings stored from packets 0x80 and
    0x81 (raw offsets 0x200/0x204), provided those parses succeed and
    fit one byte — and transitions to CheckHeaderAndEraseMem. -/
theorem C3_idle_version_reply : ∀ (bf : BinaryFile) (b1 b2 b3 mj mn : Nat),
    pyIntDecimal bf.SW_MAJOR = Except.ok mj → mj < 256 →
    pyIntDecimal bf.SW_MINOR = Except.ok mn → mn < 256 →
    Context.execute bf St.idle (some [0x80, b1, b2, b3]) =
      Except.ok (St.checkHeaderAndEraseMem,
        [Ev.log deviceFoundMsg, Ev.tx [0xC0, mj, mn, 0xFF]]) := by
  intro bf b1 b2 b3 mj mn hmj hmjlt hmn hmnlt
  simp [Context.execute, stateActionsOf, stateTransitionOf,
    Idle_01.stateTransition, hmj, hmn, pyToBytesBE, natToBEBytes,
    Nat.mod_eq_of_lt hmjlt, Nat.mod_eq_of_lt hmnlt, hmjlt, hmnlt]

/-- C3 (witness): the amended reply theorem applied to `bfSmall`, whose
    stored digit strings parse to 1 and 2. -/
theorem C3_idle_version_reply_witness :
    pyIntDecimal bfSmall.SW_MAJOR = Except.ok 1 ∧ (1 : Nat) < 256 ∧
    pyIntDecimal bfSmall.SW_MINOR = Except.ok 2 ∧ (2 : Nat) < 256 ∧
    Context.execute bfSmall St.idle (some [0x80, 0xFF, 0xFF, 0xFF]) =
      Except.ok (St.checkHeaderAndEraseMem,
        [Ev.log deviceFoundMsg, Ev.tx [0xC0, 1, 2, 0xFF]]) :=
  ⟨by decide, by decide, by decide, by decide,
    C3_idle_version_reply bfSmall 0xFF 0xFF 0xFF 1 2 (by decide) (by decide)
      (by decide) (by decide)⟩

/-! Claim C4 — erase progress and erase-done.
    The claim as frozen locates the erase-done flag in payload byte 3 of
    the 0x81 frame; the code tests `input[2]` — the frame's byte 2 —
    which also matches the notebook's own wire-format line
    `0x81 xx yy FF` (yy = done flag in byte 2) and its recorded session
    (`810a01ff` triggers the 0xC1 response). The amended claim moves
    the flag to frame byte 2. -/

/-- C4 (counterexample): in CheckHeaderAndEraseMem, the frame
    `81 05 00 01` — whose byte 3 is 0x01 but whose byte 2 is 0x00 — does
    not transition to Prepare2Flash and emits nothing: the machine only
    logs the sector and stays. -/
theorem C4_counterexample :
    (Context.execute BinaryFile.init St.checkHeaderAndEraseMem
        (some [0x81, 5, 0, 0x01])).toOption.map Prod.fst =
      some St.checkHeaderAndEraseMem ∧
    (Context.execute BinaryFile.init St.checkHeaderAndEraseMem
        (some [0x81, 5, 0, 0x01])).toOption.map (fun p => evsTx p.2) =
      some [] ∧
    St.checkHeaderAndEraseMem ≠ St.prepare2Flash := by
  refine ⟨by decide, by decide, by decide⟩

/-- C4 (amended): in CheckHeaderAndEraseMem, a 0x81 frame whose byte 2
    (the done flag of `0x81 sector flag FF`) equals 0x01 logs the sector
    and completion and emits `0xC1` + packetCount as 3 big-endian bytes,
    transitioning to Prepare2Flash (packetCount must fit 3 bytes, else
    `to_bytes` raises); a 0x81 frame whose byte-2 flag differs from 0x01
    only logs the sector carried in byte 1 and stays. -/
theorem C4_erase_done :
    (∀ (bf : BinaryFile) (b1 b3 : Nat), bf.fileSizePackets < 16777216 →
      Context.execute bf St.checkHeaderAndEraseMem (some [0x81, b1, 0x01, b3]) =
        Except.ok (St.prepare2Flash,
          [Ev.log (eraseSectorMsg b1), Ev.log allErasedMsg,
           Ev.tx [0xC1, bf.fileSizePackets / 65536 % 256,
             bf.fileSizePackets / 256 % 256, bf.fileSizePackets % 256]])) ∧
    (∀ (bf : BinaryFile) (b1 fl b3 : Nat), fl ≠ 0x01 →
      Context.execute bf St.checkHeaderAndEraseMem (some [0x81, b1, fl, b3]) =
        Except.ok (St.checkHeaderAndEraseMem, [Ev.log (eraseSectorMsg b1)])) := by
  constructor
  · intro bf b1 b3 hcnt
    simp [Context.execute, stateActionsOf, stateTransitionOf,
      CheckHeaderAndEraseMem_02.stateActions,
      CheckHeaderAndEraseMem_02.stateTransition, pyIx, pyToBytesBE,
      natToBEBytes, hcnt, Nat.div_div_eq_div_mul]
  · intro bf b1 fl b3 hfl
    simp [Context.execute, stateActionsOf, stateTransitionOf,
      CheckHeaderAndEraseMem_02.stateActions,
      CheckHeaderAndEraseMem_02.stateTransition, pyIx, hfl]

/-- C4 (witness): the amended theorem at `bfSmall` (2 packets) for the
    done case, and at flag 0x00 for the stay case. -/
theorem C4_erase_done_witness :
    bfSmall.fileSizePackets < 16777216 ∧
    Context.execute bfSmall St.checkHeaderAndEraseMem (some [0x81, 5, 0x01, 0xFF]) =
      Except.ok (St.prepare2Flash,
        [Ev.log (eraseSectorMsg 5), Ev.log allErasedMsg,
         Ev.tx [0xC1, bfSmall.fileSizePackets / 65536 % 256,
           bfSmall.fileSizePackets / 256 % 256, bfSmall.fileSizePackets % 256]]) ∧
    (0 : Nat) ≠ 0x01 ∧
    Context.execute bfSmall St.checkHeaderAndEraseMem (some [0x81, 5, 0, 0xFF]) =
      Except.ok (St.checkHeaderAndEraseMem, [Ev.log (eraseSectorMsg 5)]) :=
  ⟨by decide, C4_erase_done.1 bfSmall 5 0xFF (by decide), by decide,
    C4_erase_done.2 bfSmall 5 0 0xFF (by decide)⟩

/-! Claim C5 — checksum comparison never blocks the FlashDone
    transition. -/

/-- C5: in SendFlashData, an inbound 0x84 frame makes the machine (after
    its per-tick action) compare frame bytes 2 and 3 with the stored
    CRC MSB/LSB, log the match or mismatch diagnostic, and transition to
    FlashDone in both cases. -/
theorem C5_checksum_nonblocking : ∀ (bf : BinaryFile) (n b1 : Nat)
    (aEvs : List Ev) (n1 : Nat),
    SendFlashData_04.stateActions bf n = Except.ok (aEvs, n1) →
    (∀ b2 b3, b2 = bf.CRC_MSB → b3 = bf.CRC_LSB →
      Context.execute bf (St.sendFlashData n) (some [0x84, b1, b2, b3]) =
        Except.ok (St.flashDone,
          aEvs ++ [Ev.log (finishedMsg n1 bf.fileSizePackets),
            Ev.log crcMatchMsg])) ∧
    (∀ b2 b3, ¬(b2 = bf.CRC_MSB ∧ b3 = bf.CRC_LSB) →
      Context.execute bf (St.sendFlashData n) (some [0x84, b1, b2, b3]) =
        Except.ok (St.flashDone,
          aEvs ++ [Ev.log (finishedMsg n1 bf.fileSizePackets),
            Ev.log crcMismatchMsg])) := by
  intro bf n b1 aEvs n1 hact
  constructor
  · intro b2 b3 hb2 hb3
    subst hb2; subst hb3
    simp [Context.execute, stateActionsOf, hact, stateTransitionOf,
      SendFlashData_04.stateTransition, pyIx]
  · intro b2 b3 hmm
    by_cases hb2 : b2 = bf.CRC_MSB
    · have hb3 : ¬b3 = bf.CRC_LSB := fun hb3 => hmm ⟨hb2, hb3⟩
      simp [Context.execute, stateActionsOf, hact, stateTransitionOf,
        SendFlashData_04.stateTransition, pyIx, hb2, hb3]
    · simp [Context.execute, stateActionsOf, hact, stateTransitionOf,
        SendFlashData_04.stateTransition, pyIx, hb2]

/-- C5 (witness): at `bfSmall` with the counter already past the end
    (no per-tick transmission) and the matching checksum bytes 7/8. -/
theorem C5_checksum_nonblocking_witness :
    SendFlashData_04.stateActions bfSmall 5 = Except.ok ([], 5) ∧
    (7 : Nat) = bfSmall.CRC_MSB ∧ (8 : Nat) = bfSmall.CRC_LSB ∧
    Context.execute bfSmall (St.sendFlashData 5) (some [0x84, 0, 7, 8]) =
      Except.ok (St.flashDone,
        [] ++ [Ev.log (finishedMsg 5 bfSmall.fileSizePackets),
          Ev.log crcMatchMsg]) :=
  ⟨by decide, by decide, by decide,
    (C5_checksum_nonblocking bfSmall 5 0 [] 5 (by decide)).1 7 8
      (by decide) (by decide)⟩

/-- A transition out of the streaming state goes nowhere (stay),
    to FlashDone (0x84) or to Error (0x8F) — never to another
    streaming counter. -/
lemma sendTransition_next (bf : BinaryFile) (n1 : Nat)
    (input : Option (List Nat)) (next : Option St) (tEvs : List Ev)
    (h : SendFlashData_04.stateTransition bf n1 input = Except.ok (next, tEvs)) :
    next = none ∨ next = some St.flashDone ∨ next = some St.error := by
  unfold SendFlashData_04.stateTransition at h
  repeat' split at h
  all_goals cases h <;> simp

/-- One tick out of `sendFlashData n` keeps the counter within
    `fileSizePackets` whenever it starts there, for any input. -/
lemma send_exec_counter_le (bf : BinaryFile)
    (hlen : bf.fileSizePackets ≤ bf.filePackets.length)
    (n : Nat) (input : Option (List Nat)) (s2 : St) (evs : List Ev)
    (hn : n ≤ bf.fileSizePackets)
    (hexec : Context.execute bf (St.sendFlashData n) input = Except.ok (s2, evs)) :
    ∀ m, s2 = St.sendFlashData m → m ≤ bf.fileSizePackets := by
  intro m hs2
  subst hs2
  rcases Nat.lt_or_ge n bf.fileSizePackets with hlt | hge
  case inl =>
    have hact := sendActions_lt bf n hlen hlt
    simp only [Context.execute, stateActionsOf, hact] at hexec
    cases ht : SendFlashData_04.stateTransition bf (n + 1) input with
    | error e => simp [stateTransitionOf, ht] at hexec
    | ok q =>
      rcases q with ⟨next, tEvs⟩
      simp only [stateTransitionOf, ht] at hexec
      rcases sendTransition_next bf (n + 1) input next tEvs ht with h0 | h0 | h0 <;>
        subst h0 <;> simp_all
      omega
  case inr =>
    have hact := sendActions_ge bf n hge
    simp only [Context.execute, stateActionsOf, hact] at hexec
    cases ht : SendFlashData_04.stateTransition bf n input with
    | error e => simp [stateTransitionOf, ht] at hexec
    | ok q =>
      rcases q with ⟨next, tEvs⟩
      simp only [stateTransitionOf, ht] at hexec
      rcases sendTransition_next bf n input next tEvs ht with h0 | h0 | h0 <;>
        subst h0 <;> simp_all

/-- Every tick of the streaming state with packets remaining — no-frame
    or any 4-byte frame, terminal opcodes included — succeeds and
    transmits exactly `packets[counter]`. -/
lemma sendTick_evsTx (bf : BinaryFile) (n : Nat) (input : Option (List Nat))
    (hlen : bf.fileSizePackets ≤ bf.filePackets.length)
    (hn : n < bf.fileSizePackets) (hin : tickInput input) :
    (Context.execute bf (St.sendFlashData n) input).toOption.map
      (fun p => evsTx p.2) = some [bf.filePackets.getD n []] := by
  have hact := sendActions_lt bf n hlen hn
  rcases hin with rfl | ⟨b0, b1, b2, b3, rfl⟩
  · rw [sendTick_none_lt bf n hlen hn]
    simp only [Except.toOption, Option.map_some']
    split <;> simp [evsTx]
  · by_cases h84 : b0 = 0x84
    · subst h84
      by_cases hb2 : b2 = bf.CRC_MSB
      · by_cases hb3 : b3 = bf.CRC_LSB
        · simp [Context.execute, stateActionsOf, hact, stateTransitionOf,
            SendFlashData_04.stateTransition, pyIx, hb2, hb3,
            Except.toOption, evsTx, List.filterMap_append]
          split <;> simp [evsTx]
        · simp [Context.execute, stateActionsOf, hact, stateTransitionOf,
            SendFlashData_04.stateTransition, pyIx, hb2, hb3,
            Except.toOption, evsTx, List.filterMap_append]
          split <;> simp [evsTx]
      · simp [Context.execute, stateActionsOf, hact, stateTransitionOf,
          SendFlashData_04.stateTransition, pyIx, hb2,
          Except.toOption, evsTx, List.filterMap_append]
        split <;> simp [evsTx]
    · by_cases h8F : b0 = 0x8F
      · subst h8F
        simp [Context.execute, stateActionsOf, hact, stateTransitionOf,
          SendFlashData_04.stateTransition, h84,
          Except.toOption, evsTx, List.filterMap_append]
        split <;> simp [evsTx]
      · simp [Context.execute, stateActionsOf, hact, stateTransitionOf,
          SendFlashData_04.stateTransition, h84, h8F,
          Except.toOption, evsTx, List.filterMap_append]
        split <;> simp [evsTx]

/-- A successful tick out of `sendFlashData n` with packets remaining
    that ends in a streaming state has advanced the counter to exactly
    `n + 1`, whatever the input was. -/
lemma send_exec_counter_eq (bf : BinaryFile)
    (hlen : bf.fileSizePackets ≤ bf.filePackets.length)
    (n : Nat) (input : Option (List Nat)) (s2 : St) (evs : List Ev)
    (hn : n < bf.fileSizePackets)
    (hexec : Context.execute bf (St.sendFlashData n) input = Except.ok (s2, evs)) :
    ∀ m, s2 = St.sendFlashData m → m = n + 1 := by
  intro m hs2
  subst hs2
  have hact := sendActions_lt bf n hlen hn
  simp only [Context.execute, stateActionsOf, hact] at hexec
  cases ht : SendFlashData_04.stateTransition bf (n + 1) input with
  | error e => simp [stateTransitionOf, ht] at hexec
  | ok q =>
    rcases q with ⟨next, tEvs⟩
    simp only [stateTransitionOf, ht] at hexec
    rcases sendTransition_next bf (n + 1) input next tEvs ht with h0 | h0 | h0 <;>
      subst h0 <;> simp_all

/-- A run of non-terminal ticks advances the streaming counter by the
    number of ticks while packets remain. -/
lemma sendIterL_progress (bf : BinaryFile)
    (hlen : bf.fileSizePackets ≤ bf.filePackets.length) :
    ∀ (ins : List (Option (List Nat))) (n : Nat),
    (∀ i ∈ ins, nonTerminalInput i) → n + ins.length ≤ bf.fileSizePackets →
    ∃ evs, execIter bf (St.sendFlashData n) ins =
      Except.ok (St.sendFlashData (n + ins.length), evs) := by
  intro ins
  induction ins with
  | nil => exact fun n _ _ => ⟨[], rfl⟩
  | cons i ins ih =>
    intro n hnt h
    have hlt : n < bf.fileSizePackets := by simp at h; omega
    have hstep := sendTick_nt_lt bf n i hlen hlt (hnt i (List.mem_cons_self i ins))
    obtain ⟨evs, he⟩ := ih (n + 1)
      (fun j hj => hnt j (List.mem_cons_of_mem i hj)) (by simp at h ⊢; omega)
    refine ⟨(if (n + 1) % 250 = 0 then
        [Ev.tx (bf.filePackets.getD n []), Ev.log (progressMsg (n + 1))]
      else [Ev.tx (bf.filePackets.getD n [])]) ++ evs, ?_⟩
    have harith : n + (i :: ins).length = n + 1 + ins.length := by simp; omega
    rw [harith]
    simp [execIter, hstep, he]

/-- Once the counter reached the packet count, non-terminal ticks stay
    in place and transmit nothing, however many there are. -/
lemma sendIterL_no_tx (bf : BinaryFile) (n : Nat)
    (hge : bf.fileSizePackets ≤ n) :
    ∀ (ins : List (Option (List Nat))), (∀ i ∈ ins, nonTerminalInput i) →
    ∃ evs, execIter bf (St.sendFlashData n) ins =
      Except.ok (St.sendFlashData n, evs) ∧ evsTx evs = [] := by
  intro ins
  induction ins with
  | nil => exact fun _ => ⟨[], rfl, rfl⟩
  | cons i ins ih =>
    intro hnt
    obtain ⟨evs, he, htx⟩ := ih (fun j hj => hnt j (List.mem_cons_of_mem i hj))
    have hstep := sendTick_nt_ge bf n i hge (hnt i (List.mem_cons_self i ins))
    refine ⟨(if n % 250 = 0 then [Ev.log (progressMsg n)] else []) ++ evs,
      ?_, ?_⟩
    · simp [execIter, hstep, he]
    · by_cases hm : n % 250 = 0 <;>
        simp [hm, evsTx, List.filterMap_append] <;>
        simpa [evsTx] using htx

/-! Claim C6 — the streaming counter. -/

/-- C6: in SendFlashData — (i) every tick with `counter < packetCount`
    carrying no terminal opcode (no-frame or any other 4-byte frame,
    such as the informational 0x83 frames) transmits `packets[counter]`,
    increments the counter and stays streaming; (ii) every tick input —
    terminal frames included — with `counter < packetCount` transmits
    exactly `packets[counter]`; (iii) any successful tick that leaves
    the machine streaming has incremented the counter to exactly
    `counter + 1`; (iv) for any input at all, a tick keeps the counter
    at most `packetCount` (so `0 ≤ counter ≤ packetCount` always);
    (v) after `packetCount` ticks with no terminal opcode the counter
    equals `packetCount`; (vi) from then on, further non-terminal ticks
    transmit no packets. -/
theorem C6_streaming_counter : ∀ (bf : BinaryFile),
    bf.fileSizePackets ≤ bf.filePackets.length →
    (∀ n input, n < bf.fileSizePackets → nonTerminalInput input →
      Context.execute bf (St.sendFlashData n) input =
        Except.ok (St.sendFlashData (n + 1),
          if (n + 1) % 250 = 0 then
            [Ev.tx (bf.filePackets.getD n []), Ev.log (progressMsg (n + 1))]
          else [Ev.tx (bf.filePackets.getD n [])])) ∧
    (∀ n input, n < bf.fileSizePackets → tickInput input →
      (Context.execute bf (St.sendFlashData n) input).toOption.map
        (fun p => evsTx p.2) = some [bf.filePackets.getD n []]) ∧
    (∀ n input s2 evs, n < bf.fileSizePackets →
      Context.execute bf (St.sendFlashData n) input = Except.ok (s2, evs) →
      ∀ m, s2 = St.sendFlashData m → m = n + 1) ∧
    (∀ n input s2 evs, n ≤ bf.fileSizePackets →
      Context.execute bf (St.sendFlashData n) input = Except.ok (s2, evs) →
      ∀ m, s2 = St.sendFlashData m → m ≤ bf.fileSizePackets) ∧
    (∀ ins : List (Option (List Nat)), (∀ i ∈ ins, nonTerminalInput i) →
      ins.length = bf.fileSizePackets →
      (execIter bf (St.sendFlashData 0) ins).toOption.map Prod.fst =
        some (St.sendFlashData bf.fileSizePackets)) ∧
    (∀ n (ins : List (Option (List Nat))), bf.fileSizePackets ≤ n →
      (∀ i ∈ ins, nonTerminalInput i) →
      (execIter bf (St.sendFlashData n) ins).toOption.map
        (fun p => evsTx p.2) = some []) := by
  intro bf hlen
  refine ⟨fun n input hn hin => sendTick_nt_lt bf n input hlen hn hin,
    fun n input hn hin => sendTick_evsTx bf n input hlen hn hin,
    fun n input s2 evs hn hexec =>
      send_exec_counter_eq bf hlen n input s2 evs hn hexec,
    fun n input s2 evs hn hexec =>
      send_exec_counter_le bf hlen n input s2 evs hn hexec,
    ?_, ?_⟩
  · intro ins hnt hlenIns
    obtain ⟨evs, he⟩ := sendIterL_progress bf hlen ins 0 hnt (by omega)
    rw [hlenIns] at he
    simp [he, Except.toOption]
  · intro n ins hge hnt
    obtain ⟨evs, he, htx⟩ := sendIterL_no_tx bf n hge ins hnt
    simp [he, htx, Except.toOption]

/-- C6 (witness): at `bfSmall` (2 packets), a streaming tick carrying
    the informational frame `83 01 00 FF` — neither NoFrame nor a
    terminal opcode — still transmits packet 0 and advances the counter
    to 1. -/
theorem C6_streaming_counter_witness :
    bfSmall.fileSizePackets ≤ bfSmall.filePackets.length ∧
    0 < bfSmall.fileSizePackets ∧
    nonTerminalInput (some [0x83, 1, 0, 0xFF]) ∧
    Context.execute bfSmall (St.sendFlashData 0) (some [0x83, 1, 0, 0xFF]) =
      Except.ok (St.sendFlashData (0 + 1),
        if (0 + 1) % 250 = 0 then
          [Ev.tx (bfSmall.filePackets.getD 0 []), Ev.log (progressMsg (0 + 1))]
        else [Ev.tx (bfSmall.filePackets.getD 0 [])]) :=
  ⟨by decide, by decide,
    Or.inr ⟨0x83, 1, 0, 0xFF, rfl, by decide, by decide⟩,
    (C6_streaming_counter bfSmall (by decide)).1 0 (some [0x83, 1, 0, 0xFF])
      (by decide) (Or.inr ⟨0x83, 1, 0, 0xFF, rfl, by decide, by decide⟩)⟩

/-! Claim C8 — frames with an unmatched opcode leave the machine in
    place. The Error state has no unmatched opcode (its transition fires
    on any input), so the hypothesis excludes it; the streaming state
    keeps its protocol phase while its per-tick counter may advance,
    which the phase projection `St.tag` captures. -/

/-- C8: for every state and every 4-byte frame whose opcode byte cannot
    trigger a transition of that state, one tick succeeds (no
    unhandled-case error) and leaves the machine in the same protocol
    phase. -/
theorem C8_unmatched_opcode_stays : ∀ (bf : BinaryFile) (s : St)
    (b0 b1 b2 b3 : Nat),
    bf.fileSizePackets ≤ bf.filePackets.length →
    opcodeTriggers s b0 = false →
    (Context.execute bf s (some [b0, b1, b2, b3])).toOption.map
      (fun p => St.tag p.1) = some (St.tag s) := by
  intro bf s b0 b1 b2 b3 hlen htrig
  cases s with
  | idle =>
    simp only [opcodeTriggers, decide_eq_false_iff_not] at htrig
    simp [Context.execute, stateActionsOf, stateTransitionOf,
      Idle_01.stateTransition, htrig, Except.toOption]
  | checkHeaderAndEraseMem =>
    simp only [opcodeTriggers, Bool.or_eq_false_iff,
      decide_eq_false_iff_not] at htrig
    simp [Context.execute, stateActionsOf, stateTransitionOf,
      CheckHeaderAndEraseMem_02.stateActions,
      CheckHeaderAndEraseMem_02.stateTransition, htrig.1, htrig.2,
      Except.toOption]
  | prepare2Flash =>
    simp only [opcodeTriggers, decide_eq_false_iff_not] at htrig
    by_cases h81 : b0 = 0x81 <;>
      simp [Context.execute, stateActionsOf, stateTransitionOf,
        Prepare2Flash_03.stateActions, Prepare2Flash_03.stateTransition,
        htrig, h81, Except.toOption]
  | sendFlashData n =>
    simp only [opcodeTriggers, Bool.or_eq_false_iff,
      decide_eq_false_iff_not] at htrig
    rcases Nat.lt_or_ge n bf.fileSizePackets with hlt | hge
    · simp [Context.execute, stateActionsOf, sendActions_lt bf n hlen hlt,
        stateTransitionOf, SendFlashData_04.stateTransition,
        htrig.1, htrig.2, St.tag, Except.toOption]
    · simp [Context.execute, stateActionsOf, sendActions_ge bf n hge,
        stateTransitionOf, SendFlashData_04.stateTransition,
        htrig.1, htrig.2, St.tag, Except.toOption]
  | flashDone =>
    simp only [opcodeTriggers, decide_eq_false_iff_not] at htrig
    simp [Context.execute, stateActionsOf, stateTransitionOf,
      FlashDone_99.stateTransition, htrig, Except.toOption]
  | error => simp [opcodeTriggers] at htrig

/-- C8 (witness): opcode 0x00 in Idle is unmatched and the tick leaves
    the machine in the Idle phase. -/
theorem C8_unmatched_opcode_stays_witness :
    bfSmall.fileSizePackets ≤ bfSmall.filePackets.length ∧
    opcodeTriggers St.idle 0 = false ∧
    (Context.execute bfSmall St.idle (some [0, 0, 0, 0])).toOption.map
      (fun p => St.tag p.1) = some (St.tag St.idle) :=
  ⟨by decide, by decide,
    C8_unmatched_opcode_stays bfSmall St.idle 0 0 0 0 (by decide) (by decide)⟩

/-! Claim C10 — actions run before the transition, so a terminal frame
    arriving mid-stream still transmits one more packet on that tick. -/

/-- C10: in SendFlashData with `counter < packetCount`, a tick carrying
    a terminal frame (0x84 or 0x8F) transmits exactly one more packet —
    `packets[counter]`, as the first event of the tick — and only then
    changes state, to FlashDone resp. Error. -/
theorem C10_action_before_transition : ∀ (bf : BinaryFile) (n b1 b2 b3 : Nat),
    bf.fileSizePackets ≤ bf.filePackets.length →
    n < bf.fileSizePackets →
    ((Context.execute bf (St.sendFlashData n)
        (some [0x84, b1, b2, b3])).toOption.map Prod.fst = some St.flashDone ∧
     (Context.execute bf (St.sendFlashData n)
        (some [0x84, b1, b2, b3])).toOption.map (fun p => evsTx p.2) =
        some [bf.filePackets.getD n []] ∧
     (Context.execute bf (St.sendFlashData n)
        (some [0x84, b1, b2, b3])).toOption.map (fun p => p.2.head?) =
        some (some (Ev.tx (bf.filePackets.getD n [])))) ∧
    ((Context.execute bf (St.sendFlashData n)
        (some [0x8F, b1, b2, b3])).toOption.map Prod.fst = some St.error ∧
     (Context.execute bf (St.sendFlashData n)
        (some [0x8F, b1, b2, b3])).toOption.map (fun p => evsTx p.2) =
        some [bf.filePackets.getD n []] ∧
     (Context.execute bf (St.sendFlashData n)
        (some [0x8F, b1, b2, b3])).toOption.map (fun p => p.2.head?) =
        some (some (Ev.tx (bf.filePackets.getD n [])))) := by
  intro bf n b1 b2 b3 hlen hlt
  have hact := sendActions_lt bf n hlen hlt
  constructor
  · by_cases hb2 : b2 = bf.CRC_MSB
    · by_cases hb3 : b3 = bf.CRC_LSB
      · refine ⟨?_, ?_, ?_⟩ <;>
          simp [Context.execute, stateActionsOf, hact, stateTransitionOf,
            SendFlashData_04.stateTransition, pyIx, hb2, hb3, evsTx,
            List.filterMap_append, Except.toOption] <;>
          split <;> simp [evsTx]
      · refine ⟨?_, ?_, ?_⟩ <;>
          simp [Context.execute, stateActionsOf, hact, stateTransitionOf,
            SendFlashData_04.stateTransition, pyIx, hb2, hb3, evsTx,
            List.filterMap_append, Except.toOption] <;>
          split <;> simp [evsTx]
    · refine ⟨?_, ?_, ?_⟩ <;>
        simp [Context.execute, stateActionsOf, hact, stateTransitionOf,
          SendFlashData_04.stateTransition, pyIx, hb2, evsTx,
          List.filterMap_append, Except.toOption] <;>
        split <;> simp [evsTx]
  · refine ⟨?_, ?_, ?_⟩ <;>
      simp [Context.execute, stateActionsOf, hact, stateTransitionOf,
        SendFlashData_04.stateTransition, pyIx, evsTx,
        List.filterMap_append, Except.toOption] <;>
      split <;> simp [evsTx]

/-- C10 (witness): at `bfSmall` with counter 0, the 0x84 tick both
    transmits packet 0 and reaches FlashDone. -/
theorem C10_action_before_transition_witness :
    bfSmall.fileSizePackets ≤ bfSmall.filePackets.length ∧
    0 < bfSmall.fileSizePackets ∧
    (Context.execute bfSmall (St.sendFlashData 0)
        (some [0x84, 0, 0, 0])).toOption.map Prod.fst = some St.flashDone ∧
    (Context.execute bfSmall (St.sendFlashData 0)
        (some [0x84, 0, 0, 0])).toOption.map (fun p => evsTx p.2) =
      some [bfSmall.filePackets.getD 0 []] :=
  ⟨by decide, by decide,
    (C10_action_before_transition bfSmall 0 0 0 0 (by decide) (by decide)).1.1,
    (C10_action_before_transition bfSmall 0 0 0 0 (by decide) (by decide)).1.2.1⟩

/-- The first four entries of a list of length at least 4, by `getD`. -/
lemma take_four_getD (l : List Nat) (h : 4 ≤ l.length) :
    l.take 4 = [l.getD 0 0, l.getD 1 0, l.getD 2 0, l.getD 3 0] := by
  match l, h with
  | a :: b :: c :: d :: rest, _ => rfl
  | [], h => simp at h
  | [a], h => simp at h
  | [a, b], h => simp at h
  | [a, b, c], h => simp at h

/-- `getD` through `drop`. -/
lemma getD_drop (l : List Nat) (m j : Nat) :
    (l.drop m).getD j 0 = l.getD (m + j) 0 := by
  simp [List.getD, List.getElem?_drop]

/-- A full 4-byte packet slice, reversed, in terms of the raw bytes. -/
lemma packet_full (bs : List Nat) (i : Nat) (h : 4 * i + 4 ≤ bs.length) :
    ((bs.drop (4 * i)).take 4).reverse =
      [bs.getD (4 * i + 3) 0, bs.getD (4 * i + 2) 0,
       bs.getD (4 * i + 1) 0, bs.getD (4 * i) 0] := by
  rw [take_four_getD (bs.drop (4 * i)) (by simp; omega)]
  simp [getD_drop]

/-- Inversion of a successful `loadBinary`: the packet-related fields of
    the produced image. -/
lemma loadBinary_ok_fields (self : BinaryFile) (bs : List Nat)
    (bf : BinaryFile) (h : BinaryFile.loadBinary self bs = Except.ok bf) :
    bf.fileSizePackets = (bs.length + 3) / 4 ∧
    bf.filePackets = self.filePackets ++
      (List.range ((bs.length + 3) / 4)).map
        (fun idx => ((bs.drop (4 * idx)).take 4).reverse) := by
  simp only [BinaryFile.loadBinary] at h
  cases h80 : pyIx (self.filePackets ++
      (List.range ((bs.length + 3) / 4)).map
        (fun idx => ((bs.drop (4 * idx)).take 4).reverse)) 0x80 with
  | error e => simp only [h80] at h; cases h
  | ok pMaj =>
    simp only [h80] at h
    cases h81 : pyIx (self.filePackets ++
        (List.range ((bs.length + 3) / 4)).map
          (fun idx => ((bs.drop (4 * idx)).take 4).reverse)) 0x81 with
    | error e => simp only [h81] at h; cases h
    | ok pMin =>
      simp only [h81] at h
      cases h
      exact ⟨rfl, rfl⟩

/-! Claim C1 — packetization of the firmware file. -/

/-- C1: a successful fresh load of a file of length L yields
    `packetCount = ceil(L/4)` (i.e. `(L+3)/4`), exactly that many
    packets, each full packet `i` the byte-reversal of raw bytes
    `[4i, 4i+4)`, and — when L is not a multiple of 4 — a final packet
    that is the byte-reversal of the remaining tail, unpadded (its
    length is `L % 4`). -/
theorem C1_packetization : ∀ (bs : List Nat) (bf : BinaryFile),
    BinaryFile.loadBinary BinaryFile.init bs = Except.ok bf →
    bf.fileSizePackets = (bs.length + 3) / 4 ∧
    bf.filePackets.length = bf.fileSizePackets ∧
    (∀ i, 4 * i + 4 ≤ bs.length →
      bf.filePackets.get? i =
        some [bs.getD (4 * i + 3) 0, bs.getD (4 * i + 2) 0,
              bs.getD (4 * i + 1) 0, bs.getD (4 * i) 0]) ∧
    (bs.length % 4 ≠ 0 →
      bf.filePackets.get? (bf.fileSizePackets - 1) =
        some ((bs.drop (4 * (bf.fileSizePackets - 1))).reverse) ∧
      (bs.drop (4 * (bf.fileSizePackets - 1))).length = bs.length % 4) := by
  intro bs bf h
  obtain ⟨hcount, hpackets⟩ := loadBinary_ok_fields BinaryFile.init bs bf h
  have hinit : BinaryFile.init.filePackets = [] := rfl
  rw [hinit, List.nil_append] at hpackets
  refine ⟨hcount, ?_, ?_, ?_⟩
  · rw [hpackets, hcount]
    simp
  · intro i hi
    have hi' : i < (bs.length + 3) / 4 := by omega
    rw [hpackets, List.get?_eq_getElem?, List.getElem?_map,
      List.getElem?_range hi']
    simp [packet_full bs i hi]
  · intro hmod
    have hpos : 0 < (bs.length + 3) / 4 := by omega
    have hc1 : (bs.length + 3) / 4 - 1 < (bs.length + 3) / 4 := by omega
    have hlen : (bs.drop (4 * ((bs.length + 3) / 4 - 1))).length =
        bs.length % 4 := by
      simp
      omega
    constructor
    · rw [hpackets, hcount, List.get?_eq_getElem?, List.getElem?_map,
        List.getElem?_range hc1]
      simp only [Option.map_some']
      rw [List.take_of_length_le (by rw [hlen]; omega)]
    · rw [hcount]
      exact hlen

/-- C1 (witness): the 517-byte all-zero file loads successfully into 130
    packets; packet 0 is the reversal of the first raw word and the
    final packet is the 1-byte unpadded tail. -/
theorem C1_packetization_witness :
    BinaryFile.loadBinary BinaryFile.init fileData517 =
      Except.ok (loadedOr fileData517) ∧
    ((loadedOr fileData517).fileSizePackets = (fileData517.length + 3) / 4 ∧
     (loadedOr fileData517).filePackets.length =
       (loadedOr fileData517).fileSizePackets ∧
     (∀ i, 4 * i + 4 ≤ fileData517.length →
       (loadedOr fileData517).filePackets.get? i =
         some [fileData517.getD (4 * i + 3) 0, fileData517.getD (4 * i + 2) 0,
               fileData517.getD (4 * i + 1) 0, fileData517.getD (4 * i) 0]) ∧
     (fileData517.length % 4 ≠ 0 →
       (loadedOr fileData517).filePackets.get?
           ((loadedOr fileData517).fileSizePackets - 1) =
         some ((fileData517.drop
           (4 * ((loadedOr fileData517).fileSizePackets - 1))).reverse) ∧
       (fileData517.drop
           (4 * ((loadedOr fileData517).fileSizePackets - 1))).length =
         fileData517.length % 4)) :=
  ⟨rfl, C1_packetization fileData517 (loadedOr fileData517) rfl⟩

/-! Claim C9 — determinism of firmware image loading. The source's
    `load` is a pure function of the file bytes (plus the prior object
    state, which a fresh image fixes): two successful fresh loads of the
    same bytes agree on every derived field. -/

/-- C9: two successful fresh loads of identical file bytes yield
    identical packet sequences, identical version fields, and identical
    checksum MSB/LSB. -/
theorem C9_load_deterministic : ∀ (bs : List Nat) (bf1 bf2 : BinaryFile),
    BinaryFile.loadBinary BinaryFile.init bs = Except.ok bf1 →
    BinaryFile.loadBinary BinaryFile.init bs = Except.ok bf2 →
    bf1.filePackets = bf2.filePackets ∧
    bf1.SW_MAJOR = bf2.SW_MAJOR ∧ bf1.SW_MINOR = bf2.SW_MINOR ∧
    bf1.CRC_MSB = bf2.CRC_MSB ∧ bf1.CRC_LSB = bf2.CRC_LSB := by
  intro bs bf1 bf2 h1 h2
  rw [h1] at h2
  cases h2
  exact ⟨rfl, rfl, rfl, rfl, rfl⟩

/-- C9 (witness): the determinism theorem applied to two loads of the
    517-byte zero file. -/
theorem C9_load_deterministic_witness :
    BinaryFile.loadBinary BinaryFile.init fileData517 =
      Except.ok (loadedOr fileData517) ∧
    ((loadedOr fileData517).filePackets = (loadedOr fileData517).filePackets ∧
     (loadedOr fileData517).SW_MAJOR = (loadedOr fileData517).SW_MAJOR ∧
     (loadedOr fileData517).SW_MINOR = (loadedOr fileData517).SW_MINOR ∧
     (loadedOr fileData517).CRC_MSB = (loadedOr fileData517).CRC_MSB ∧
     (loadedOr fileData517).CRC_LSB = (loadedOr fileData517).CRC_LSB) :=
  ⟨rfl, C9_load_deterministic fileData517 (loadedOr fileData517)
    (loadedOr fileData517) rfl rfl⟩

end Flasher
